import Mathlib

/-!
Verification development for the `cobcide` main-window controller
(`cobcide/window.py`).  The Python source is shallowly embedded: pure
helpers become Lean functions, stateful handlers become explicit state
transformers over record types, and the external collaborators
(filesystem, `chardet`, `TabManager`, the Qt thread pool) become oracle
parameters or small transition systems.
-/

namespace Cobcide

/-! ### Python string semantics helpers -/

/-- Split a character list on a separator, mirroring Python's
`str.split(sep)` with an explicit separator: the empty input yields one
empty field, and every occurrence of the separator starts a new field. -/
def splitCharsOn (sep : Char) : List Char → List (List Char)
  | [] => [[]]
  | c :: cs =>
    let r := splitCharsOn sep cs
    if c = sep then [] :: r
    else
      match r with
      | [] => [[c]]
      | h :: t => (c :: h) :: t

/-- ASCII upper-casing of every character, mirroring Python 2 `str.upper`
on byte strings (only `a`-`z` are mapped). -/
def pyUpper (s : String) : String := ⟨s.toList.map Char.toUpper⟩

/-- `leadsWith s pat`: `pat` occurs at the very start of `s`. -/
def leadsWith : List Char → List Char → Bool
  | _, [] => true
  | [], _ :: _ => false
  | a :: as, b :: bs => (a == b) && leadsWith as bs

/-- `hasSub s pat`: `pat` occurs contiguously somewhere inside `s`;
mirrors Python's `pat in s` on strings. -/
def hasSub : List Char → List Char → Bool
  | [], pat => pat.isEmpty
  | a :: as, pat => leadsWith (a :: as) pat || hasSub as pat

/-- Python's `sub in s` membership test on strings. -/
def strContains (s sub : String) : Bool := hasSub s.toList sub.toList

/-- Drop leading whitespace characters. -/
def dropLeadingWs : List Char → List Char
  | [] => []
  | c :: cs => if c.isWhitespace then dropLeadingWs cs else c :: cs

/-- Python's `str.strip()` (whitespace from both ends). -/
def pyStrip (l : List Char) : List Char :=
  ((dropLeadingWs l).reverse |> dropLeadingWs).reverse

/-- Decimal value of a digit list, most significant first. -/
def charsToNat (l : List Char) : Nat :=
  l.foldl (fun acc c => acc * 10 + (c.toNat - 48)) 0

/-- Python's `int(s)` for base 10: strips whitespace, accepts one
optional sign followed by at least one digit; anything else raises
`ValueError`, modelled as `none`. -/
def pyInt (s : String) : Option Int :=
  match pyStrip s.toList with
  | [] => none
  | c :: cs =>
    if c = '-' then
      if !cs.isEmpty && cs.all Char.isDigit then some (-(charsToNat cs : Int)) else none
    else if c = '+' then
      if !cs.isEmpty && cs.all Char.isDigit then some ((charsToNat cs : Int)) else none
    else
      if (c :: cs).all Char.isDigit then some ((charsToNat (c :: cs) : Int)) else none

/-- `QFileInfo(filename).suffix()`: the characters of the file name
(after the last path separator) that follow its last dot; empty when the
file name contains no dot. -/
def qSuffix (filename : String) : String :=
  let base := (splitCharsOn '/' filename.toList).getLastD []
  let parts := splitCharsOn '.' base
  if parts.length ≤ 1 then "" else ⟨parts.getLastD []⟩

/-! ### File classification

Modelled from the spec: `FileType` lives in `cobcide/__init__.py`, which
is not part of the excerpt; the spec describes it as "an enumerated
value — Text, Program, Subprogram". -/

/-- Modelled from the spec: the three-valued file classification
(`cobcide.FileType`), whose definition is outside the excerpted module. -/
inductive FileType
  | Text
  | Program
  | Subprogram
deriving DecidableEq, Repr

/-! ### `MainWindow.detect_file_type` and `MainWindow.detect_encoding`

The filesystem and `chardet` are oracles: `readLines` returns the lines
of a file (with Python `readlines` semantics) or `none` when opening or
reading raises, `readAll` returns a whole file's contents or `none`, and
`chdet` is `chardet.detect(...)['encoding']` (`none` models Python
`None`). -/

/-- The marker scanned for in `.cbl` files (source line 200). -/
def procedureDivisionUsing : String := "PROCEDURE DIVISION USING"

/-- `"PROCEDURE DIVISION USING" in l.upper()` (source line 200). -/
def lineHasMarker (l : String) : Bool :=
  hasSub (pyUpper l).toList procedureDivisionUsing.toList

/-- Embedding of `MainWindow.detect_file_type` (source lines 187-205):
non-`"cbl"` suffixes give `Text`; for a `"cbl"` suffix the type is
pre-set to `Program`, then the file is read and any line containing the
marker (upper-cased) flips it to `Subprogram`; a read failure is
swallowed, leaving `Program`. -/
def detect_file_type (readLines : String → Option (List String)) (filename : String) :
    FileType :=
  if qSuffix filename = "cbl" then
    match readLines filename with
    | some lines =>
      if lines.any lineHasMarker then FileType.Subprogram else FileType.Program
    | none => FileType.Program
  else FileType.Text

/-- Embedding of `MainWindow.detect_encoding` (source lines 170-185): a
read failure, a detector answer of `None`, or a falsy (empty) detector
answer all fall back to `sys.getfilesystemencoding()` (the `fsEnc`
parameter); otherwise the detector's answer is returned.  The bare
`except` makes the function total. -/
def detect_encoding (readAll chdet : String → Option String) (fsEnc filename : String) :
    String :=
  match readAll filename with
  | none => fsEnc
  | some content =>
    match chdet content with
    | none => fsEnc
    | some enc => if enc = "" then fsEnc else enc

/-! ### `MainWindow.__on_error_double_clicked` -/

/-- `item.text().split(':')[0]` (source line 403). -/
def firstColonField (txt : String) : String :=
  ⟨(splitCharsOn ':' txt.toList).headD []⟩

/-- Embedding of `MainWindow.__on_error_double_clicked` (source lines
395-408), restricted to the cursor line it manipulates: `int(...)` of the
text before the first `':'` becomes the new cursor line; a `ValueError`
(non-numeric field) is swallowed and the cursor is unchanged. -/
def on_error_double_clicked (itemText : String) (cursorLine : Int) : Int :=
  match pyInt (firstColonField itemText) with
  | some n => n
  | none => cursorLine

/-! ### `MainWindow.__update_toolbar`

The tab-manager facts the method reads (`has_open_tabs()`,
`isinstance(active_tab, CobolEditor)`, `active_tab_type`) form the
context; the action flags it writes form the toolbar state.  The method
mutates existing actions, so it is a state transformer: fields it does
not write in a branch keep their previous value (notably the checked
flags when a COBOL tab carries the `Text` classification). -/

/-- Tab-manager context read by `__update_toolbar`. -/
structure TabCtx where
  hasOpenTabs : Bool
  activeIsCobol : Bool
  activeTabType : FileType
deriving DecidableEq, Repr

/-- The enabled/checked action flags written by `__update_toolbar`. -/
structure ToolbarState where
  saveAsEnabled : Bool
  saveEnabled : Bool
  compileEnabled : Bool
  runEnabled : Bool
  programEnabled : Bool
  subprogramEnabled : Bool
  programChecked : Bool
  subprogramChecked : Bool
deriving DecidableEq, Repr

/-- Embedding of `MainWindow.__update_toolbar` (source lines 124-166). -/
def update_toolbar (ctx : TabCtx) (tb : ToolbarState) : ToolbarState :=
  if !ctx.hasOpenTabs then
    { saveAsEnabled := false, saveEnabled := false, compileEnabled := false,
      runEnabled := false, programEnabled := false, subprogramEnabled := false,
      programChecked := false, subprogramChecked := false }
  else
    let tb := { tb with saveAsEnabled := true, saveEnabled := true }
    if ctx.activeIsCobol then
      let tb := { tb with compileEnabled := true, runEnabled := true,
                          programEnabled := true, subprogramEnabled := true }
      if ctx.activeTabType = FileType.Program then
        { tb with programChecked := true, subprogramChecked := false }
      else if ctx.activeTabType = FileType.Subprogram then
        { tb with programChecked := false, subprogramChecked := true,
                  runEnabled := false }
      else tb
    else
      { tb with compileEnabled := false, runEnabled := false,
                programEnabled := false, subprogramEnabled := false,
                programChecked := false, subprogramChecked := false }

/-- All-disabled toolbar, the state produced by the `__update_toolbar`
call in `__init__` (line 84, before any tab exists). -/
def initToolbar : ToolbarState :=
  { saveAsEnabled := false, saveEnabled := false, compileEnabled := false,
    runEnabled := false, programEnabled := false, subprogramEnabled := false,
    programChecked := false, subprogramChecked := false }

/-! ### `MainWindow._open_file` and the page/tab state machine

`PAGE_HOME`/`PAGE_EDITOR` are the stacked-widget indices (source lines
44-46).  An open tab is recorded as `(filename, classification,
encoding)`.

Modelled from the spec: `TabManager` (`cobcide/tab_manager.py`, outside
the excerpt) is the collaborator whose `open_tab(path, type, encoding)`
registers a tab and makes it active, may raise `UnicodeDecodeError`
(modelled by the `openTabRaises` oracle), and whose tab-changed
notification reports the new active tab, or `None` when the last tab was
closed (spec sections 4.2 and 6).  A tab is a COBOL editor exactly when
its classification is not `Text` (spec sections 3 and 9). -/

/-- Home page stacked-widget index (source line 44). -/
def PAGE_HOME : Nat := 0

/-- Editor page stacked-widget index (source line 46). -/
def PAGE_EDITOR : Nat := 1

/-- An open tab: filename, classification, encoding — the key handed to
`TabManager.open_tab` (source line 220). -/
structure Tab where
  filename : String
  filetype : FileType
  encoding : String
deriving DecidableEq, Repr

/-- The application state the excerpted controller mutates: visible
page, open tabs (most recently opened first, head = active), persisted
last-used directory, recent-files record, and toolbar flags. -/
structure AppState where
  page : Nat
  tabs : List Tab
  lastUsedPath : Option String
  recentFiles : List String
  toolbar : ToolbarState
deriving DecidableEq, Repr

/-- State after `__init__` (source lines 60-122): home page shown, no
tabs, toolbar fully disabled. -/
def initApp : AppState :=
  { page := PAGE_HOME, tabs := [], lastUsedPath := none, recentFiles := [],
    toolbar := initToolbar }

/-- External collaborators of `_open_file`: `os.path.exists`,
`os.path.normpath`, the file reads behind `detect_file_type` /
`detect_encoding`, `chardet`, `sys.getfilesystemencoding()`, the
directory of a path (`active_tab_file_dir`), and whether
`TabManager.open_tab` raises `UnicodeDecodeError` on a given
(normalized) path. -/
structure OpenDeps where
  pathExists : String → Bool
  normpath : String → String
  dirname : String → String
  readLines : String → Option (List String)
  readAll : String → Option String
  chdet : String → Option String
  fsEnc : String
  openTabRaises : String → Bool

/-- The literal message of the "Bad encoding" dialog (source lines
238-241).  Faithful to the source: the `%s` placeholder is never
substituted (there is no `% filename` after the string), and the missing
space between `"with"` and `"a standard"` is kept. -/
def badEncodingText : String :=
  "Failed to open %s, bad encoding.\n\nChardet could not detect a usable encoding, please encode your file witha standard encoding (utf-8 for example)"

/-- Embedding of `MainWindow._open_file` (source lines 207-242).  The
result is the new application state paired with the text of the critical
dialog, when one is shown.  Faithful to the source order: the guard
rejects empty/nonexistent paths, the path is normalized, the stacked
widget is switched to the editor page *before* the `try` block, and a
`UnicodeDecodeError` from `open_tab` aborts everything after it (no tab,
no settings write, no toolbar refresh, no recent-files record). -/
def open_file (d : OpenDeps) (s : AppState) (filename : String)
    (filetype : Option FileType) : AppState × Option String :=
  if !(filename == "") && d.pathExists filename then
    let fn := d.normpath filename
    let s := { s with page := PAGE_EDITOR }
    if d.openTabRaises fn then
      (s, some badEncodingText)
    else
      let ft :=
        match filetype with
        | some t => t
        | none => detect_file_type d.readLines fn
      let enc := detect_encoding d.readAll d.chdet d.fsEnc fn
      let s := { s with tabs := { filename := fn, filetype := ft, encoding := enc } :: s.tabs }
      let s := { s with lastUsedPath := some (d.dirname fn) }
      let ctx : TabCtx :=
        { hasOpenTabs := true, activeIsCobol := decide (ft ≠ FileType.Text),
          activeTabType := ft }
      let s := { s with toolbar := update_toolbar ctx s.toolbar }
      ({ s with recentFiles := fn :: s.recentFiles }, none)
  else (s, none)

/-- Embedding of `MainWindow.__on_current_tab_changed` (source lines
426-463), restricted to the modelled state: with a live widget the
toolbar is refreshed (the page is *not* touched); with `None` the
toolbar is refreshed and the stacked widget returns to the home page. -/
def on_current_tab_changed (s : AppState) (widget : Option Tab) : AppState :=
  match widget with
  | some tab =>
    let ctx : TabCtx :=
      { hasOpenTabs := true, activeIsCobol := decide (tab.filetype ≠ FileType.Text),
        activeTabType := tab.filetype }
    { s with toolbar := update_toolbar ctx s.toolbar }
  | none =>
    let ctx : TabCtx :=
      { hasOpenTabs := false, activeIsCobol := false, activeTabType := FileType.Text }
    { s with toolbar := update_toolbar ctx s.toolbar, page := PAGE_HOME }

/-- Modelled from the spec: closing the active tab.  `TabManager` (not
in the excerpt) pops the tab and emits its tab-changed notification with
the new active tab, or `None` when none remains (spec section 6), which
`__on_current_tab_changed` handles. -/
def close_tab (s : AppState) : AppState :=
  match s.tabs with
  | [] => s
  | _ :: rest => on_current_tab_changed { s with tabs := rest } rest.head?

/-- The user-driven events of the modelled workflow. -/
inductive AppEvent
  | openFile (filename : String) (filetype : Option FileType)
  | closeTab

/-- One controller step per event. -/
def app_step (d : OpenDeps) (s : AppState) : AppEvent → AppState
  | AppEvent.openFile fn ft => (open_file d s fn ft).1
  | AppEvent.closeTab => close_tab s

/-- Reachable application states, from the post-`__init__` state, under
a fixed external world `d`. -/
inductive AppReachable (d : OpenDeps) : AppState → Prop
  | init : AppReachable d initApp
  | step {s : AppState} (e : AppEvent) :
      AppReachable d s → AppReachable d (app_step d s e)

/-! ### The single-slot worker pool

`__init__` creates a `QThreadPool` and calls `setMaxThreadCount(1)`
(source lines 63-64); `on_actionRun_triggered` hands it one-shot,
auto-deleted runner tasks (source lines 375-381).  The pool itself is
Qt, modelled by its documented semantics: `start` runs the task at once
when fewer than `maxThreadCount` tasks are active and otherwise appends
it to the run queue; when an active task finishes it is retired and the
head of the queue, if any, is promoted.  Tasks are identified by `Nat`;
a task emits output lines (`lineAvailable`) only while it is active, and
the shared log records every emitted line with its emitter.  Starting
requires a fresh task object, reflecting the one-shot auto-deleted
runners. -/

/-- A Qt thread pool as configured and observed by the controller. -/
structure Pool where
  maxThreadCount : Nat
  active : List Nat
  queue : List Nat
  retired : List Nat
  log : List (Nat × String)
deriving DecidableEq, Repr

/-- `QThreadPool.start`: run now if a slot is free, else enqueue. -/
def poolStart (p : Pool) (t : Nat) : Pool :=
  if p.active.length < p.maxThreadCount then
    { p with active := t :: p.active }
  else
    { p with queue := p.queue ++ [t] }

/-- An active task emits one output line into the shared log. -/
def poolEmit (p : Pool) (t : Nat) (line : String) : Pool :=
  { p with log := p.log ++ [(t, line)] }

/-- An active task completes: it is retired and the queue head, if any
and if a slot is free, is promoted to active. -/
def poolFinish (p : Pool) (t : Nat) : Pool :=
  let act := p.active.erase t
  let ret := t :: p.retired
  if act.length < p.maxThreadCount then
    match p.queue with
    | [] => { p with active := act, retired := ret }
    | q :: qs => { p with active := q :: act, queue := qs, retired := ret }
  else
    { p with active := act, retired := ret }

/-- Pool transitions: submitting a fresh one-shot task, an active task
emitting a line, an active task finishing. -/
inductive PoolStep : Pool → Pool → Prop
  | start (p : Pool) (t : Nat) (h1 : t ∉ p.active) (h2 : t ∉ p.queue)
      (h3 : t ∉ p.retired) : PoolStep p (poolStart p t)
  | emit (p : Pool) (t : Nat) (line : String) (h : t ∈ p.active) :
      PoolStep p (poolEmit p t line)
  | finish (p : Pool) (t : Nat) (h : t ∈ p.active) :
      PoolStep p (poolFinish p t)

/-- The pool as `__init__` leaves it: `setMaxThreadCount(1)`, idle. -/
def initPool : Pool :=
  { maxThreadCount := 1, active := [], queue := [], retired := [], log := [] }

/-- Pool states reachable from the controller's configuration. -/
inductive PoolReachable : Pool → Prop
  | init : PoolReachable initPool
  | step {p q : Pool} : PoolReachable p → PoolStep p q → PoolReachable q

/-- The emitter sequence of the shared output log. -/
def emitters (p : Pool) : List Nat := p.log.map Prod.fst

/-- A log never interleaves two tasks: for distinct tasks `a` and `b`
the pattern `a, b, a` never occurs as a subsequence of the emitter
sequence. -/
def Grouped (l : List Nat) : Prop :=
  ∀ a b : Nat, a ≠ b → ¬ List.Sublist [a, b, a] l

/-! ### `MainWindow.on_actionRun_triggered` and the runner signals -/

/-- The run-related window state: current index of the logs tab widget,
the output view's lines, the `actionRun` enabled flag, and the pool. -/
structure RunState where
  logTabIndex : Nat
  output : List String
  runEnabled : Bool
  pool : Pool
deriving DecidableEq, Repr

/-- Embedding of `MainWindow.on_actionRun_triggered` (source lines
367-381): switch the logs view to the output tab, clear the output,
build a one-shot runner (identified by `runnerId`), connect its signals,
and submit it to the pool.  The handler itself never touches the
`actionRun` enabled flag. -/
def on_actionRun_triggered (s : RunState) (runnerId : Nat) : RunState :=
  { s with logTabIndex := 1, output := [], pool := poolStart s.pool runnerId }

/-- The `runner.events.finished` connection (source line 377): the
signal's boolean payload is written to `actionRun.setEnabled`. -/
def on_runner_finished (s : RunState) (b : Bool) : RunState :=
  { s with runEnabled := b }

/-- The `runner.events.lineAvailable` connection (source lines 378-379):
the line is appended to the output view. -/
def on_runner_lineAvailable (s : RunState) (line : String) : RunState :=
  { s with output := s.output ++ [line] }

/-! ## Theorems -/

/-- C1: For every path whose extension is not ".cbl", `detect_file_type`
returns `Text`; for every ".cbl" path whose file is readable,
`detect_file_type` returns `Subprogram` exactly when some line of the
file contains "procedure division using" compared case-insensitively
(the line is upper-cased and scanned for the upper-case marker), and
`Program` otherwise. -/
theorem detect_file_type_matches_spec (fs : String → Option (List String))
    (p : String) (lines : List String) :
    (qSuffix p ≠ "cbl" → detect_file_type fs p = FileType.Text) ∧
    (qSuffix p = "cbl" → fs p = some lines →
      ((∃ l ∈ lines, lineHasMarker l) →
        detect_file_type fs p = FileType.Subprogram) ∧
      ((∀ l ∈ lines, ¬ lineHasMarker l) →
        detect_file_type fs p = FileType.Program)) := by
  refine ⟨fun h => by simp [detect_file_type, h], fun h hfs => ⟨fun hex => ?_, fun hall => ?_⟩⟩
  · have hany : lines.any lineHasMarker = true := by
      rcases hex with ⟨l, hl, hm⟩
      exact List.any_eq_true.mpr ⟨l, hl, hm⟩
    simp [detect_file_type, h, hfs, hany]
  · have hany : lines.any lineHasMarker = false := by
      rw [List.any_eq_false]
      intro l hl
      exact hall l hl
    simp [detect_file_type, h, hfs, hany]

/-- Witness for C1 at a concrete ".cbl" file containing the marker in
mixed case. -/
theorem detect_file_type_matches_spec_witness :
    detect_file_type
      (fun _ => some ["000100 CALL STUFF.", "000200 Procedure Division Using A B."])
      "sub.cbl" = FileType.Subprogram :=
  ((detect_file_type_matches_spec
      (fun _ => some ["000100 CALL STUFF.", "000200 Procedure Division Using A B."])
      "sub.cbl" ["000100 CALL STUFF.", "000200 Procedure Division Using A B."]).2
    (by decide) rfl).1
    ⟨"000200 Procedure Division Using A B.", by decide, by decide⟩

/-- C10: The extension test of `detect_file_type` is case-sensitive: a
path whose suffix is a non-lowercase variant of the COBOL extension
(upper-casing to "CBL" but differing from "cbl") yields `Text`, and the
result does not depend on the filesystem oracle at all — the file is
never opened. -/
theorem detect_file_type_suffix_case_sensitive
    (fs fs₂ : String → Option (List String)) (p : String)
    (h1 : pyUpper (qSuffix p) = "CBL") (h2 : qSuffix p ≠ "cbl") :
    detect_file_type fs p = FileType.Text ∧
    detect_file_type fs p = detect_file_type fs₂ p := by
  constructor <;> simp [detect_file_type, h2]

/-- Witness for C10: "a.CBL" is classified `Text` even though the file
content holds the subprogram marker. -/
theorem detect_file_type_suffix_case_sensitive_witness :
    detect_file_type (fun _ => some ["PROCEDURE DIVISION USING A."]) "a.CBL"
      = FileType.Text :=
  (detect_file_type_suffix_case_sensitive
    (fun _ => some ["PROCEDURE DIVISION USING A."]) (fun _ => none) "a.CBL"
    (by decide) (by decide)).1

/-- C7: `detect_encoding` is total (it is a plain function — the bare
`except` swallows every failure): a read failure falls back to the
platform default encoding, a detector answer of `None` (or the falsy
empty string) falls back likewise, and otherwise the detector's answer
is returned. -/
theorem detect_encoding_matches_spec (readAll chdet : String → Option String)
    (fsEnc p : String) :
    (readAll p = none → detect_encoding readAll chdet fsEnc p = fsEnc) ∧
    (∀ c, readAll p = some c → (chdet c = none ∨ chdet c = some "") →
      detect_encoding readAll chdet fsEnc p = fsEnc) ∧
    (∀ c enc, readAll p = some c → chdet c = some enc → enc ≠ "" →
      detect_encoding readAll chdet fsEnc p = enc) := by
  refine ⟨fun h => by simp [detect_encoding, h], fun c hc hd => ?_,
    fun c enc hc hd hne => ?_⟩
  · rcases hd with hd | hd <;> simp [detect_encoding, hc, hd]
  · simp [detect_encoding, hc, hd, hne]

/-- Witness for C7: unreadable file falls back to the default. -/
theorem detect_encoding_matches_spec_witness :
    detect_encoding (fun _ => none) (fun _ => none) "utf-8" "x.cbl" = "utf-8" :=
  (detect_encoding_matches_spec (fun _ => none) (fun _ => none) "utf-8" "x.cbl").1 rfl

/-- C8: On a diagnostic double-click, when the text before the first
':' parses as an integer `n` the cursor moves to line `n`; when it does
not parse, the click is silently ignored and the cursor is unchanged. -/
theorem on_error_double_clicked_matches_spec (txt : String) (cur : Int) :
    (∀ n : Int, pyInt (firstColonField txt) = some n →
      on_error_double_clicked txt cur = n) ∧
    (pyInt (firstColonField txt) = none →
      on_error_double_clicked txt cur = cur) := by
  constructor
  · intro n hn
    simp [on_error_double_clicked, hn]
  · intro hn
    simp [on_error_double_clicked, hn]

/-- Witness for C8 on the spec's own examples: "12:Some error" moves
the cursor to 12; a diagnostic with no numeric prefix leaves it at 5. -/
theorem on_error_double_clicked_matches_spec_witness :
    on_error_double_clicked "12:Some error" 5 = 12 ∧
    on_error_double_clicked "Some error" 5 = 5 :=
  ⟨(on_error_double_clicked_matches_spec "12:Some error" 5).1 12 (by decide),
   (on_error_double_clicked_matches_spec "Some error" 5).2 (by decide)⟩

/-- C6: `_open_file` on an empty path, or on a path the filesystem does
not know, is a complete no-op: the state is returned unchanged and no
dialog is shown. -/
theorem open_file_rejects_silently (d : OpenDeps) (s : AppState) (fn : String)
    (ft : Option FileType) (h : fn = "" ∨ d.pathExists fn = false) :
    open_file d s fn ft = (s, none) := by
  rcases h with h | h
  · subst h; simp [open_file]
  · simp [open_file, h]

/-- A concrete external world for the failure scenarios: every path
exists and `TabManager.open_tab` raises `UnicodeDecodeError` on every
file. -/
def decodeFailWorld : OpenDeps :=
  { pathExists := fun _ => true, normpath := id, dirname := fun _ => "",
    readLines := fun _ => none, readAll := fun _ => none,
    chdet := fun _ => none, fsEnc := "utf-8", openTabRaises := fun _ => true }

/-- A concrete external world where no path exists. -/
def emptyWorld : OpenDeps :=
  { pathExists := fun _ => false, normpath := id, dirname := fun _ => "",
    readLines := fun _ => none, readAll := fun _ => none,
    chdet := fun _ => none, fsEnc := "utf-8", openTabRaises := fun _ => false }

/-- Witness for C6: opening a nonexistent path changes nothing. -/
theorem open_file_rejects_silently_witness :
    open_file emptyWorld initApp "ghost.cbl" none = (initApp, none) :=
  open_file_rejects_silently emptyWorld initApp "ghost.cbl" none (Or.inr rfl)

/-- C2 counterexample: after a toolbar refresh with a plain text tab
active (classification `Text`, not a COBOL editor), the Run action is
disabled even though the classification is not `Subprogram` — refuting
"enabled otherwise (for every other active-tab state)". -/
theorem update_toolbar_run_counterexample :
    (update_toolbar
      { hasOpenTabs := true, activeIsCobol := false, activeTabType := FileType.Text }
      initToolbar).runEnabled = false ∧
    FileType.Text ≠ FileType.Subprogram := by decide

/-- C2 (amended): after every toolbar refresh, Run is disabled whenever
the active tab's classification is `Subprogram`, and it is enabled
exactly when a tab is open, the active tab is a COBOL editor, and the
classification is not `Subprogram` (so it is also disabled when no tab
is open or the active tab is not a COBOL editor). -/
theorem update_toolbar_run_enabled_iff (ctx : TabCtx) (tb : ToolbarState) :
    (update_toolbar ctx tb).runEnabled =
      (ctx.hasOpenTabs && ctx.activeIsCobol &&
        !(ctx.activeTabType == FileType.Subprogram)) := by
  rcases ctx with ⟨ho, ic, ty⟩
  cases ho <;> cases ic <;> cases ty <;> rfl

/-- C5 counterexample: triggering Run from a state where the Run action
is enabled submits the runner to the pool yet leaves the Run action
enabled — the handler contains no `setEnabled(False)`, so Run is *not*
disabled before the runner task starts. -/
theorem run_trigger_counterexample :
    (on_actionRun_triggered
      { logTabIndex := 0, output := [], runEnabled := true, pool := initPool }
      7).runEnabled = true ∧
    7 ∈ (on_actionRun_triggered
      { logTabIndex := 0, output := [], runEnabled := true, pool := initPool }
      7).pool.active := by decide

/-- C5 (amended): triggering Run switches the logs view to the output
tab, clears the output, and submits the runner to the single-slot pool,
leaving the Run action's enabled flag unchanged; the flag changes only
when the runner's `finished(b)` signal writes `b` into it.  Re-entrant
invocation is therefore not prevented by disabling the action — a second
invocation while one runs simply queues behind it in the pool. -/
theorem run_trigger_enable_flag_behavior (s : RunState) (t : Nat) (b : Bool) :
    (on_actionRun_triggered s t).runEnabled = s.runEnabled ∧
    (on_actionRun_triggered s t).pool = poolStart s.pool t ∧
    (on_actionRun_triggered s t).logTabIndex = 1 ∧
    (on_actionRun_triggered s t).output = [] ∧
    (on_runner_finished s b).runEnabled = b :=
  ⟨rfl, rfl, rfl, rfl, rfl⟩

/-- C4: evaluation at the failing input.  Opening an existing file whose
tab registration raises `UnicodeDecodeError` shows the "Bad encoding"
dialog, but that dialog's text does not contain the file's name (the
source never applies `% filename` to the `%s` placeholder), and the
application state is *not* unchanged: the stacked widget was already
switched to the editor page before the failure, while no tab was
registered. -/
theorem open_file_decode_failure_behavior :
    (open_file decodeFailWorld initApp "f.cbl" none).2 = some badEncodingText ∧
    strContains badEncodingText "f.cbl" = false ∧
    (open_file decodeFailWorld initApp "f.cbl" none).1.tabs = initApp.tabs ∧
    (open_file decodeFailWorld initApp "f.cbl" none).1.page = PAGE_EDITOR ∧
    initApp.page = PAGE_HOME :=
  ⟨rfl, by decide, rfl, rfl, rfl⟩

/-- C3: the page/tab invariant is violated at a reachable state.  From
the freshly initialised application (home page, no tabs), one open
request on an existing file whose decode fails leaves the editor page
visible with zero tabs open. -/
theorem editor_page_visible_without_tabs :
    AppReachable decodeFailWorld
      (app_step decodeFailWorld initApp (AppEvent.openFile "bad.cbl" none)) ∧
    (app_step decodeFailWorld initApp (AppEvent.openFile "bad.cbl" none)).page
      = PAGE_EDITOR ∧
    (app_step decodeFailWorld initApp (AppEvent.openFile "bad.cbl" none)).tabs = [] :=
  ⟨AppReachable.step (AppEvent.openFile "bad.cbl" none) AppReachable.init, rfl, rfl⟩

/-! ### Serialization of the single-slot pool (C9) -/

/-- If a list with a final element appended equals a two-element list,
the parts match up. -/
theorem concat_eq_pair {α : Type} {s : List α} {x u v : α}
    (h : s ++ [x] = [u, v]) : s = [u] ∧ x = v := by
  match s with
  | [] => simp at h
  | [a] => simp_all
  | a :: b :: t => simp at h

/-- If a list with a final element appended equals a three-element list,
the parts match up. -/
theorem concat_eq_triple {α : Type} {s : List α} {x u v w : α}
    (h : s ++ [x] = [u, v, w]) : s = [u, v] ∧ x = w := by
  match s with
  | [] => simp at h
  | [a] => simp_all
  | [a, b] => simp_all
  | a :: b :: c :: t => simp at h

/-- A sublist of `l ++ [x]` is a sublist of `l`, or ends in `x` with the
rest a sublist of `l`. -/
theorem sublist_concat_cases {α : Type} {s l : List α} {x : α}
    (h : List.Sublist s (l ++ [x])) :
    List.Sublist s l ∨ ∃ s₁, s = s₁ ++ [x] ∧ List.Sublist s₁ l := by
  rcases List.sublist_append_iff.mp h with ⟨s₁, s₂, hs, h₁, h₂⟩
  rcases List.sublist_singleton.mp h₂ with h2 | h2
  · subst h2
    left
    simpa [hs] using h₁
  · subst h2
    right
    exact ⟨s₁, hs, h₁⟩

/-- The empty log is grouped. -/
theorem grouped_nil : Grouped [] := by
  intro a b _ hsub
  have := List.sublist_nil.mp hsub
  simp at this

/-- Appending an emitter that never emitted before keeps a log
grouped. -/
theorem Grouped.concat_fresh {l : List Nat} {x : Nat} (hg : Grouped l)
    (hx : x ∉ l) : Grouped (l ++ [x]) := by
  intro a b hab hsub
  rcases sublist_concat_cases hsub with h | ⟨s₁, hs, hsub₁⟩
  · exact hg a b hab h
  · rcases concat_eq_triple hs.symm with ⟨rfl, rfl⟩
    exact hx (hsub₁.subset (List.mem_cons_self _ _))

/-- Appending the emitter of the last entry keeps a log grouped. -/
theorem Grouped.concat_last {l₀ : List Nat} {x : Nat}
    (hg : Grouped (l₀ ++ [x])) : Grouped (l₀ ++ [x] ++ [x]) := by
  intro a b hab hsub
  rcases sublist_concat_cases hsub with h | ⟨s₁, hs, hsub₁⟩
  · exact hg a b hab h
  · obtain ⟨rfl, hxa⟩ := concat_eq_triple hs.symm
    rcases sublist_concat_cases hsub₁ with h2 | ⟨s₂, hs2, hsub₂⟩
    · refine hg a b hab (List.Sublist.append h2 ?_)
      rw [hxa]
    · obtain ⟨rfl, hxb⟩ := concat_eq_pair hs2.symm
      exact hab (hxa.symm.trans hxb)

/-- A list of length at most one that contains `t` is `[t]`. -/
theorem length_le_one_mem {α : Type} {l : List α} {t : α}
    (h : l.length ≤ 1) (ht : t ∈ l) : l = [t] := by
  match l, ht with
  | [a], ht => simp_all
  | a :: b :: r, _ => simp [List.length_cons] at h

/-- The shared-log emitters after an emission. -/
theorem emitters_poolEmit (p : Pool) (t : Nat) (line : String) :
    emitters (poolEmit p t line) = emitters p ++ [t] := by
  simp [emitters, poolEmit]

/-- Invariant of every pool state the controller can reach: the slot
capacity is the configured one, at most one task is active, active and
queued tasks are not retired, the queue is duplicate-free and disjoint
from the active slot, every emitter is active or retired, every
non-retired emitter owns the final block of the log, and the log is
grouped. -/
structure PoolInv (p : Pool) : Prop where
  cap : p.maxThreadCount = 1
  activeLen : p.active.length ≤ 1
  activeRetired : ∀ t ∈ p.active, t ∉ p.retired
  queueRetired : ∀ t ∈ p.queue, t ∉ p.retired
  queueActive : ∀ t ∈ p.queue, t ∉ p.active
  queueNodup : p.queue.Nodup
  emitDone : ∀ t ∈ emitters p, t ∈ p.retired ∨ t ∈ p.active
  emitLast : ∀ t ∈ emitters p, t ∈ p.retired ∨ ∃ l₀, emitters p = l₀ ++ [t]
  grouped : Grouped (emitters p)

theorem poolInv_init : PoolInv initPool where
  cap := rfl
  activeLen := by simp [initPool]
  activeRetired := by simp [initPool]
  queueRetired := by simp [initPool]
  queueActive := by simp [initPool]
  queueNodup := by simp [initPool]
  emitDone := by simp [initPool, emitters]
  emitLast := by simp [initPool, emitters]
  grouped := by simpa [initPool, emitters] using grouped_nil

theorem poolInv_start {p : Pool} (inv : PoolInv p) {t : Nat}
    (h1 : t ∉ p.active) (h2 : t ∉ p.queue) (h3 : t ∉ p.retired) :
    PoolInv (poolStart p t) := by
  unfold poolStart
  split
  case isTrue hlt =>
    have hact : p.active = [] := by
      rw [inv.cap] at hlt
      exact List.length_eq_zero.mp (by omega)
    exact
      { cap := inv.cap
        activeLen := by simp [hact]
        activeRetired := by
          intro u hu
          rw [hact] at hu
          simp at hu
          subst hu
          exact h3
        queueRetired := inv.queueRetired
        queueActive := by
          intro u hu hmem
          rcases List.mem_cons.mp hmem with rfl | hm
          · exact h2 hu
          · exact inv.queueActive u hu hm
        queueNodup := inv.queueNodup
        emitDone := by
          intro u hu
          rcases inv.emitDone u hu with hr | ha
          · exact Or.inl hr
          · exact Or.inr (List.mem_cons_of_mem _ ha)
        emitLast := inv.emitLast
        grouped := inv.grouped }
  case isFalse hge =>
    exact
      { cap := inv.cap
        activeLen := inv.activeLen
        activeRetired := inv.activeRetired
        queueRetired := by
          intro u hu
          rcases List.mem_append.mp hu with hm | hm
          · exact inv.queueRetired u hm
          · simp at hm
            subst hm
            exact h3
        queueActive := by
          intro u hu
          rcases List.mem_append.mp hu with hm | hm
          · exact inv.queueActive u hm
          · simp at hm
            subst hm
            exact h1
        queueNodup := by
          refine inv.queueNodup.append (List.nodup_singleton t) ?_
          intro u hu hv
          simp at hv
          subst hv
          exact h2 hu
        emitDone := inv.emitDone
        emitLast := inv.emitLast
        grouped := inv.grouped }

theorem poolInv_emit {p : Pool} (inv : PoolInv p) {t : Nat} (line : String)
    (h : t ∈ p.active) : PoolInv (poolEmit p t line) := by
  have hE := emitters_poolEmit p t line
  refine
    { cap := inv.cap
      activeLen := inv.activeLen
      activeRetired := inv.activeRetired
      queueRetired := inv.queueRetired
      queueActive := inv.queueActive
      queueNodup := inv.queueNodup
      emitDone := ?_
      emitLast := ?_
      grouped := ?_ }
  · intro u hu
    rw [hE] at hu
    rcases List.mem_append.mp hu with hm | hm
    · exact inv.emitDone u hm
    · simp at hm
      subst hm
      exact Or.inr h
  · intro u hu
    rw [hE] at hu
    rw [hE]
    rcases List.mem_append.mp hu with hm | hm
    · rcases inv.emitDone u hm with hr | ha
      · exact Or.inl hr
      · have : u = t := by
          have hsingle := length_le_one_mem inv.activeLen h
          rw [hsingle] at ha
          simpa using ha
        subst this
        exact Or.inr ⟨emitters p, rfl⟩
    · simp at hm
      subst hm
      exact Or.inr ⟨emitters p, rfl⟩
  · rw [hE]
    by_cases hmem : t ∈ emitters p
    · rcases inv.emitLast t hmem with hr | ⟨l₀, hl⟩
      · exact absurd hr (inv.activeRetired t h)
      · rw [hl]
        exact Grouped.concat_last (hl ▸ inv.grouped)
    · exact Grouped.concat_fresh inv.grouped hmem

/-- Under the controller's configuration (capacity one) and a sole
active task, `poolFinish` retires it and promotes the queue head. -/
theorem poolFinish_eq {p : Pool} (hcap : p.maxThreadCount = 1) {t : Nat}
    (hact : p.active = [t]) :
    poolFinish p t =
      (match p.queue with
        | [] => { p with active := [], retired := t :: p.retired }
        | q :: qs =>
          { p with active := [q], queue := qs, retired := t :: p.retired }) := by
  unfold poolFinish
  rw [hact, hcap]
  simp

theorem poolInv_finish {p : Pool} (inv : PoolInv p) {t : Nat}
    (h : t ∈ p.active) : PoolInv (poolFinish p t) := by
  have hact : p.active = [t] := length_le_one_mem inv.activeLen h
  rcases hq : p.queue with _ | ⟨q, qs⟩
  · rw [poolFinish_eq inv.cap hact, hq]
    exact
      { cap := inv.cap
        activeLen := by simp
        activeRetired := by simp
        queueRetired := by
          intro u hu
          simp at hu
        queueActive := by
          intro u hu
          simp at hu
        queueNodup := List.nodup_nil
        emitDone := by
          intro u hu
          rcases inv.emitDone u hu with hr | ha
          · exact Or.inl (List.mem_cons_of_mem _ hr)
          · rw [hact] at ha
            simp at ha
            subst ha
            exact Or.inl (List.mem_cons_self _ _)
        emitLast := by
          intro u hu
          rcases inv.emitLast u hu with hr | hex
          · exact Or.inl (List.mem_cons_of_mem _ hr)
          · exact Or.inr hex
        grouped := inv.grouped }
  · have hqmem : q ∈ p.queue := by rw [hq]; exact List.mem_cons_self _ _
    have hqs_sub : ∀ u ∈ qs, u ∈ p.queue := by
      intro u hu
      rw [hq]
      exact List.mem_cons_of_mem _ hu
    have hqnodup : (q :: qs).Nodup := hq ▸ inv.queueNodup
    rw [poolFinish_eq inv.cap hact, hq]
    exact
      { cap := inv.cap
        activeLen := by simp
        activeRetired := by
          intro u hu
          simp at hu
          rw [hu]
          intro hmem
          rcases List.mem_cons.mp hmem with he | hr
          · exact inv.queueActive q hqmem
              (by rw [hact, he]; exact List.mem_cons_self _ _)
          · exact inv.queueRetired q hqmem hr
        queueRetired := by
          intro u hu hmem
          rcases List.mem_cons.mp hmem with he | hr
          · exact inv.queueActive u (hqs_sub u hu)
              (by rw [hact, he]; exact List.mem_cons_self _ _)
          · exact inv.queueRetired u (hqs_sub u hu) hr
        queueActive := by
          intro u hu hmem
          simp at hmem
          rw [hmem] at hu
          exact (List.nodup_cons.mp hqnodup).1 hu
        queueNodup := (List.nodup_cons.mp hqnodup).2
        emitDone := by
          intro u hu
          rcases inv.emitDone u hu with hr | ha
          · exact Or.inl (List.mem_cons_of_mem _ hr)
          · rw [hact] at ha
            simp at ha
            subst ha
            exact Or.inl (List.mem_cons_self _ _)
        emitLast := by
          intro u hu
          rcases inv.emitLast u hu with hr | hex
          · exact Or.inl (List.mem_cons_of_mem _ hr)
          · exact Or.inr hex
        grouped := inv.grouped }

theorem poolInv_preserved {p q : Pool} (inv : PoolInv p) (hs : PoolStep p q) :
    PoolInv q := by
  cases hs with
  | start t h1 h2 h3 => exact poolInv_start inv h1 h2 h3
  | emit t line h => exact poolInv_emit inv line h
  | finish t h => exact poolInv_finish inv h

theorem poolInv_reachable {p : Pool} (h : PoolReachable p) : PoolInv p := by
  induction h with
  | init => exact poolInv_init
  | step _ hs ih => exact poolInv_preserved ih hs

/-- C9: with the pool as the controller configures it (one worker
slot), every reachable pool state has at most one task executing, the
output lines of two distinct tasks never interleave in the shared log
(the pattern `a, b, a` never occurs among the emitters), and submitting
a task while one is active appends it to the run queue instead of
starting it. -/
theorem pool_serializes_runs (p : Pool) (h : PoolReachable p) :
    p.active.length ≤ 1 ∧
    (∀ a b : Nat, a ≠ b → ¬ List.Sublist [a, b, a] (emitters p)) ∧
    (∀ t : Nat, p.active ≠ [] →
      poolStart p t = { p with queue := p.queue ++ [t] }) := by
  have inv := poolInv_reachable h
  refine ⟨inv.activeLen, inv.grouped, fun t hne => ?_⟩
  have hpos : 0 < p.active.length := List.length_pos.mpr hne
  unfold poolStart
  rw [inv.cap]
  have hnlt : ¬ p.active.length < 1 := by omega
  simp [hnlt]

/-- Witness for C9 at a concretely reached pool: the controller's fresh
pool after one submission and one output line. -/
theorem pool_serializes_runs_witness :
    (poolEmit (poolStart initPool 0) 0 "HELLO").active.length ≤ 1 ∧
    ¬ List.Sublist [1, 2, 1] (emitters (poolEmit (poolStart initPool 0) 0 "HELLO")) :=
  let h :=
    pool_serializes_runs (poolEmit (poolStart initPool 0) 0 "HELLO")
      (PoolReachable.step
        (PoolReachable.step PoolReachable.init
          (PoolStep.start initPool 0 (by decide) (by decide) (by decide)))
        (PoolStep.emit (poolStart initPool 0) 0 "HELLO" (by decide)))
  ⟨h.1, h.2.1 1 2 (by decide)⟩

end Cobcide
